import Mathlib

/-!
# goCapture: selection state machine, capture coordinator and input hooks

A shallow embedding of `main.go` and `overlay.go`.  Callbacks that talk to the
operating system are embedded as pure functions that take the values the
operating system hands back as arguments and return the new program state
together with the list of outward calls they made, in program order.
-/

namespace GoCapture

/-! ## Constants (main.go:30-38, overlay.go:42-66) -/

def WM_KEYDOWN : Nat := 0x0100
def WM_KEYUP : Nat := 0x0101
def VK_SPACE : Nat := 0x20
def VK_ESCAPE : Nat := 0x1B
def VK_CONTROL : Nat := 0x11
def WM_DESTROY : Nat := 0x0002
def WM_PAINT : Nat := 0x000F
def WM_LBUTTONDOWN : Nat := 0x0201
def WM_LBUTTONUP : Nat := 0x0202
def WM_MOUSEMOVE : Nat := 0x0200
def WM_CLOSE : Nat := 0x0010
def WM_USER : Nat := 0x0400
def WM_UPDATE_RECT : Nat := WM_USER + 1
def PS_SOLID : Nat := 0
def NULL_BRUSH : Nat := 5

/-! ## Machine integers -/

/-- Two's-complement reduction of an integer to Go's `int`, 64 bits wide on the
windows/amd64 target; `app.counter++` wraps this way. -/
def wrapInt64 (x : Int) : Int :=
  (x + 9223372036854775808) % 18446744073709551616 - 9223372036854775808

/-- The conversion `uintptr(x)` of a signed integer on a 64-bit target. -/
def uintptrOf (x : Int) : Nat := (x % 18446744073709551616).toNat

/-! ## Geometry: Go's `image.Point` and `image.Rectangle` -/

/-- Go's `image.Point`. -/
structure Point where
  X : Int
  Y : Int
  deriving DecidableEq, Repr

/-- Go's `image.Rectangle`. -/
structure Rectangle where
  Min : Point
  Max : Point
  deriving DecidableEq, Repr

/-- The zero value of `image.Rectangle`, what `captureRegion` holds before any drag. -/
def Rectangle.zero : Rectangle := ⟨⟨0, 0⟩, ⟨0, 0⟩⟩

/-- Go's `image.Rect`: swaps the coordinates of an axis given in the wrong order. -/
def Rect (x0 y0 x1 y1 : Int) : Rectangle :=
  let xs : Int × Int := if x0 > x1 then (x1, x0) else (x0, x1)
  let ys : Int × Int := if y0 > y1 then (y1, y0) else (y0, y1)
  ⟨⟨xs.1, ys.1⟩, ⟨xs.2, ys.2⟩⟩

/-- Go's `Rectangle.Empty`. -/
def Rectangle.Empty (r : Rectangle) : Bool :=
  decide (r.Min.X ≥ r.Max.X) || decide (r.Min.Y ≥ r.Max.Y)

/-- Go's `Rectangle.Dx`, the width. -/
def Rectangle.Dx (r : Rectangle) : Int := r.Max.X - r.Min.X

/-- Go's `Rectangle.Dy`, the height. -/
def Rectangle.Dy (r : Rectangle) : Int := r.Max.Y - r.Min.Y

/-- Go's `Point.String`. -/
def Point.String (p : Point) : String :=
  "(" ++ toString p.X ++ "," ++ toString p.Y ++ ")"

/-- Go's `Rectangle.String`, what `%v` prints. -/
def Rectangle.String (r : Rectangle) : String :=
  r.Min.String ++ "-" ++ r.Max.String

/-- The helper `min` of overlay.go:342. -/
def min (a b : Int) : Int := if a < b then a else b

/-- The helper `max` of overlay.go:349. -/
def max (a b : Int) : Int := if a > b then a else b

/-! ## Outward calls -/

/-- The calls a callback makes to the mutex, the operating system and the
libraries, recorded in program order. -/
inductive Effect where
  | Lock
  | Unlock
  | CaptureRect (r : Rectangle)
  | Create (name : String)
  | Encode (file img : Nat)
  | Close (file : Nat)
  | Stdout (s : String)
  | Log (s : String)
  | PostMessage (hwnd msg wParam lParam : Nat)
  | CallNextHookEx (hhk nCode wParam lParam : Nat)
  | UnhookWindowsHookEx (hook : Nat)
  | Exit (code : Int)
  | InvalidateRect (hwnd rect erase : Nat)
  | BeginPaint (hwnd : Nat)
  | CreatePen (style width color : Nat)
  | SelectObject (hdc obj : Nat)
  | Rectangle (hdc left top right bottom : Nat)
  | DeleteObject (obj : Nat)
  | EndPaint (hwnd : Nat)
  | PostQuitMessage (code : Nat)
  | DefWindowProc (hwnd msg wParam lParam : Nat)
  deriving DecidableEq, Repr

/-! ## Program state (main.go:61-67, overlay.go:107-117) -/

/-- The `POINT` of main.go:57 (`int32` coordinates). -/
structure POINT where
  X : Int
  Y : Int
  deriving DecidableEq, Repr

/-- The `MSLLHOOKSTRUCT` of overlay.go:99. -/
structure MSLLHOOKSTRUCT where
  Pt : POINT
  MouseData : Nat
  Flags : Nat
  Time : Nat
  DwExtraInfo : Nat
  deriving DecidableEq, Repr

/-- The `KBDLLHOOKSTRUCT` of main.go:40. -/
structure KBDLLHOOKSTRUCT where
  VkCode : Nat
  ScanCode : Nat
  Flags : Nat
  Time : Nat
  DwExtraInfo : Nat
  deriving DecidableEq, Repr

/-- The `CaptureApp` of main.go:61.  The mutex `mu` shows in the effect trace;
`overlay` records whether the pointer `app.overlay` is non-nil. -/
structure CaptureApp where
  captureRegion : Rectangle
  counter : Int
  keyboardHook : Nat
  overlay : Bool
  deriving DecidableEq, Repr

/-- The `OverlayWindow` of overlay.go:107.  `hasApp` records whether the pointer
`ow.app` is non-nil; when it is, it points to the one `CaptureApp` of the process. -/
structure OverlayWindow where
  hwnd : Nat
  startX : Int
  startY : Int
  endX : Int
  endY : Int
  isDragging : Bool
  lastRect : Rectangle
  hasApp : Bool
  mouseHook : Nat
  deriving DecidableEq, Repr

/-- The whole program state: the application object and the overlay object. -/
structure Sys where
  app : CaptureApp
  ow : OverlayWindow
  deriving DecidableEq, Repr

/-- The state `main` builds (main.go:70-83): counter 1, zero rectangle, the
overlay from `NewOverlayWindow` with `SetApp` applied. -/
def initial : Sys :=
  { app := { captureRegion := Rectangle.zero, counter := 1, keyboardHook := 0, overlay := true }
    ow := { hwnd := 0, startX := 0, startY := 0, endX := 0, endY := 0, isDragging := false,
            lastRect := Rectangle.zero, hasApp := true, mouseHook := 0 } }

/-! ## Application controller (main.go:130-140) -/

/-- The method `updateRegion` (main.go:130): assignment and console line under the lock. -/
def updateRegion (app : CaptureApp) (rect : Rectangle) : CaptureApp × List Effect :=
  ({ app with captureRegion := rect },
   [Effect.Lock, Effect.Stdout ("Capture region updated: " ++ rect.String ++ "\n"), Effect.Unlock])

/-- The function `isCtrlPressed` (main.go:137) applied to what
`GetAsyncKeyState(VK_CONTROL)` returned. -/
def isCtrlPressed (ret : Nat) : Bool := (ret &&& 0x8000) != 0

/-! ## Pointer hook (overlay.go:198-249) -/

/-- One invocation of the pointer hook by the operating system: the three
arguments, the structure `lParam` points to, what `GetAsyncKeyState(VK_CONTROL)`
answers during the call, and what `CallNextHookEx` answers. -/
structure MouseCall where
  nCode : Int
  wParam : Nat
  lParam : Nat
  mouseStruct : MSLLHOOKSTRUCT
  keyState : Nat
  next : Nat
  deriving DecidableEq, Repr

/-- The state change and the calls of the `switch` in `mouseCallback` (overlay.go:202-243). -/
def mouseSwitch (s : Sys) (c : MouseCall) : Sys × List Effect :=
  if c.wParam = WM_LBUTTONDOWN then
    if isCtrlPressed c.keyState then
      let ow := { s.ow with startX := c.mouseStruct.Pt.X, startY := c.mouseStruct.Pt.Y }
      let ow := { ow with endX := ow.startX, endY := ow.startY, isDragging := true }
      ({ s with ow := ow }, [Effect.PostMessage ow.hwnd WM_UPDATE_RECT 0 0])
    else (s, [])
  else if c.wParam = WM_MOUSEMOVE then
    if s.ow.isDragging && isCtrlPressed c.keyState then
      let ow := { s.ow with endX := c.mouseStruct.Pt.X, endY := c.mouseStruct.Pt.Y }
      ({ s with ow := ow }, [Effect.PostMessage ow.hwnd WM_UPDATE_RECT 0 0])
    else (s, [])
  else if c.wParam = WM_LBUTTONUP then
    if s.ow.isDragging then
      let ow := { s.ow with endX := c.mouseStruct.Pt.X, endY := c.mouseStruct.Pt.Y,
                            isDragging := false }
      let minX := min ow.startX ow.endX
      let maxX := max ow.startX ow.endX
      let minY := min ow.startY ow.endY
      let maxY := max ow.startY ow.endY
      let rect := Rect minX minY maxX maxY
      let ow := { ow with lastRect := rect }
      let upd : CaptureApp × List Effect :=
        if ow.hasApp then updateRegion s.app rect else (s.app, [])
      ({ app := upd.1, ow := ow }, upd.2 ++ [Effect.PostMessage ow.hwnd WM_UPDATE_RECT 0 0])
    else (s, [])
  else (s, [])

/-- The closure `mouseCallback` (overlay.go:198): new state, calls made, return
value.  The receiver `ow` the closure captured is never nil, so the guard
`nCode >= 0 && ow != nil` is the test on `nCode`. -/
def mouseCallback (s : Sys) (c : MouseCall) : Sys × List Effect × Nat :=
  let r : Sys × List Effect := if c.nCode ≥ 0 then mouseSwitch s c else (s, [])
  (r.1, r.2 ++ [Effect.CallNextHookEx 0 (uintptrOf c.nCode) c.wParam c.lParam], c.next)

/-- The pointer hook run over a sequence of invocations. -/
def runMouse : Sys → List MouseCall → Sys × List Effect
  | s, [] => (s, [])
  | s, c :: cs =>
    let r := mouseCallback s c
    let rest := runMouse r.1 cs
    (rest.1, r.2.1 ++ rest.2)

/-! ## Capture coordinator (main.go:96-128) -/

/-- Go's `%03d` verb: decimal digits, zero-padded on the left to a width of
three characters, the sign of a negative number counting as one of them. -/
def fmtD03 (c : Int) : String :=
  let digits := Nat.toDigits 10 c.natAbs
  if c < 0 then String.mk ('-' :: (List.replicate (2 - digits.length) '0' ++ digits))
  else String.mk (List.replicate (3 - digits.length) '0' ++ digits)

/-- The value of `fmt.Sprintf("capture_%03d.png", counter)` (main.go:111). -/
def filename (counter : Int) : String := "capture_" ++ fmtD03 counter ++ ".png"

/-- What the collaborators answer during one call of `captureScreen`:
`screenshot.CaptureRect` (an image or an error), `os.Create` (a file or an
error), `png.Encode` (an error or nil) and `filepath.Abs`. -/
structure CaptureEnv where
  CaptureRect : Rectangle → Except String Nat
  Create : String → Except String Nat
  Encode : Nat → Nat → Option String
  Abs : String → String

/-- The result of one call of `captureScreen`: the application object after the
call, the returned error (`none` for nil) and the calls made, in order. -/
structure CaptureResult where
  app : CaptureApp
  err : Option String
  trace : List Effect
  deriving DecidableEq, Repr

/-- The method `captureScreen` (main.go:96).  The deferred `Unlock` runs last,
after the deferred `file.Close`. -/
def captureScreen (env : CaptureEnv) (app : CaptureApp) : CaptureResult :=
  if app.captureRegion.Empty then
    ⟨app, some "no capture region selected", [Effect.Lock, Effect.Unlock]⟩
  else
    match env.CaptureRect app.captureRegion with
    | .error e =>
      ⟨app, some ("failed to capture screenshot: " ++ e),
       [Effect.Lock, Effect.CaptureRect app.captureRegion, Effect.Unlock]⟩
    | .ok img =>
      let name := filename app.counter
      let app1 := { app with counter := wrapInt64 (app.counter + 1) }
      match env.Create name with
      | .error e =>
        ⟨app1, some ("failed to create file: " ++ e),
         [Effect.Lock, Effect.CaptureRect app.captureRegion, Effect.Create name, Effect.Unlock]⟩
      | .ok file =>
        match env.Encode file img with
        | some e =>
          ⟨app1, some ("failed to encode PNG: " ++ e),
           [Effect.Lock, Effect.CaptureRect app.captureRegion, Effect.Create name,
            Effect.Encode file img, Effect.Close file, Effect.Unlock]⟩
        | none =>
          ⟨app1, none,
           [Effect.Lock, Effect.CaptureRect app.captureRegion, Effect.Create name,
            Effect.Encode file img,
            Effect.Stdout ("Screenshot saved: " ++ env.Abs name ++ "\n"),
            Effect.Close file, Effect.Unlock]⟩

/-- Successive calls of `captureScreen`, one collaborator environment per call:
the final application object, the returned errors and the concatenated trace. -/
def captureSeq : CaptureApp → List CaptureEnv → CaptureApp × List (Option String) × List Effect
  | app, [] => (app, [], [])
  | app, env :: envs =>
    let r := captureScreen env app
    let rest := captureSeq r.app envs
    (rest.1, r.err :: rest.2.1, r.trace ++ rest.2.2)

/-- The names passed to `os.Create` in a trace, in order. -/
def createdFiles : List Effect → List String
  | [] => []
  | Effect.Create name :: es => name :: createdFiles es
  | _ :: es => createdFiles es

/-- The rectangles passed to `screenshot.CaptureRect` in a trace, in order. -/
def grabbedRects : List Effect → List Rectangle
  | [] => []
  | Effect.CaptureRect r :: es => r :: grabbedRects es
  | _ :: es => grabbedRects es

/-- Whether an effect is one of the I/O calls of `captureScreen`: the frame
grab, the file creation, the PNG encoding or the console output. -/
def Effect.isIO : Effect → Bool
  | Effect.CaptureRect _ => true
  | Effect.Create _ => true
  | Effect.Encode _ _ => true
  | Effect.Stdout _ => true
  | _ => false

/-- Scan of a trace that tracks whether the lock is held and reports whether
some I/O call is made while it is. -/
def ioUnderLock : Bool → List Effect → Bool
  | _, [] => false
  | _, Effect.Lock :: es => ioUnderLock true es
  | _, Effect.Unlock :: es => ioUnderLock false es
  | held, e :: es => (held && e.isIO) || ioUnderLock held es

/-! ## Keyboard hook (main.go:143-170, 206-213) -/

/-- The method `OverlayWindow.Close` (overlay.go:332). -/
def OverlayWindow.Close (ow : OverlayWindow) : List Effect :=
  if ow.hwnd ≠ 0 then [Effect.PostMessage ow.hwnd WM_CLOSE 0 0] else []

/-- The method `cleanup` (main.go:206). -/
def cleanup (s : Sys) : List Effect :=
  (if s.app.keyboardHook ≠ 0 then [Effect.UnhookWindowsHookEx s.app.keyboardHook] else []) ++
  (if s.app.overlay then s.ow.Close else [])

/-- One invocation of the keyboard hook by the operating system: the three
arguments, the structure `lParam` points to, and what `CallNextHookEx` answers. -/
structure KeyCall where
  nCode : Int
  wParam : Nat
  lParam : Nat
  kbdStruct : KBDLLHOOKSTRUCT
  next : Nat
  deriving DecidableEq, Repr

/-- The result of one keyboard-hook invocation: new state, calls made, and the
value returned to the operating system (`none` when the process exited instead). -/
structure KeyResult where
  sys : Sys
  trace : List Effect
  ret : Option Nat
  deriving DecidableEq, Repr

/-- The forwarding tail of `hookCallback` (main.go:167-169). -/
def passOn (s : Sys) (c : KeyCall) : KeyResult :=
  ⟨s, [Effect.CallNextHookEx 0 (uintptrOf c.nCode) c.wParam c.lParam], some c.next⟩

/-- The closure `hookCallback` (main.go:143). -/
def hookCallback (env : CaptureEnv) (s : Sys) (c : KeyCall) : KeyResult :=
  if c.nCode ≥ 0 then
    if c.wParam = WM_KEYDOWN then
      if c.kbdStruct.VkCode = VK_SPACE then
        let r := captureScreen env s.app
        let logged : List Effect :=
          match r.err with
          | some e => [Effect.Log ("Error: " ++ e ++ "\n")]
          | none => []
        ⟨{ s with app := r.app }, r.trace ++ logged, some 1⟩
      else if c.kbdStruct.VkCode = VK_ESCAPE then
        ⟨s, [Effect.Stdout "\nExiting...\n"] ++ cleanup s ++ [Effect.Exit 0], none⟩
      else passOn s c
    else passOn s c
  else passOn s c

/-! ## Overlay window procedure (overlay.go:266-330) -/

/-- The handles the operating system hands back during one call of `wndProc`:
from `BeginPaint`, `CreatePen`, the two `SelectObject` calls, and the result of
`DefWindowProc`. -/
structure GdiEnv where
  hdc : Nat
  pen : Nat
  oldPen : Nat
  oldBrush : Nat
  defRet : Nat
  deriving DecidableEq, Repr

/-- The `WM_PAINT` branch of `wndProc` (overlay.go:278-317). -/
def paint (ow : OverlayWindow) (g : GdiEnv) (hwnd : Nat) : List Effect :=
  [Effect.BeginPaint hwnd] ++
  (if !ow.lastRect.Empty || ow.isDragging then
    [Effect.CreatePen PS_SOLID 3 0x0000FF, Effect.SelectObject g.hdc g.pen,
     Effect.SelectObject g.hdc NULL_BRUSH] ++
    (if !ow.lastRect.Empty then
      [Effect.Rectangle g.hdc (uintptrOf ow.lastRect.Min.X) (uintptrOf ow.lastRect.Min.Y)
        (uintptrOf ow.lastRect.Max.X) (uintptrOf ow.lastRect.Max.Y)]
     else []) ++
    (if ow.isDragging then
      let minX := min ow.startX ow.endX
      let maxX := max ow.startX ow.endX
      let minY := min ow.startY ow.endY
      let maxY := max ow.startY ow.endY
      [Effect.Rectangle g.hdc (uintptrOf minX) (uintptrOf minY) (uintptrOf maxX) (uintptrOf maxY)]
     else []) ++
    [Effect.SelectObject g.hdc g.oldPen, Effect.SelectObject g.hdc g.oldBrush,
     Effect.DeleteObject g.pen]
   else []) ++
  [Effect.EndPaint hwnd]

/-- The function `wndProc` (overlay.go:266): calls made and return value.
`globalOverlay` is the package variable, `none` for nil. -/
def wndProc (globalOverlay : Option OverlayWindow) (g : GdiEnv)
    (hwnd msg wParam lParam : Nat) : List Effect × Nat :=
  match globalOverlay with
  | none => ([Effect.DefWindowProc hwnd msg wParam lParam], g.defRet)
  | some ow =>
    if msg = WM_UPDATE_RECT then ([Effect.InvalidateRect hwnd 0 1], 0)
    else if msg = WM_PAINT then (paint ow g hwnd, 0)
    else if msg = WM_CLOSE ∨ msg = WM_DESTROY then
      ((if ow.mouseHook ≠ 0 then [Effect.UnhookWindowsHookEx ow.mouseHook] else []) ++
        [Effect.PostQuitMessage 0], 0)
    else ([Effect.DefWindowProc hwnd msg wParam lParam], g.defRet)

/-- The rectangle outlines drawn in a trace, in order. -/
def outlines : List Effect → List (Nat × Nat × Nat × Nat)
  | [] => []
  | Effect.Rectangle _ l t r b :: es => (l, t, r, b) :: outlines es
  | _ :: es => outlines es

/-! ## Vocabulary for statements about pointer events -/

/-- An invocation the hook acts on (`nCode >= 0`) for a button-down at `(x, y)`. -/
def IsDown (c : MouseCall) (x y : Int) : Prop :=
  0 ≤ c.nCode ∧ c.wParam = WM_LBUTTONDOWN ∧ c.mouseStruct.Pt = ⟨x, y⟩

/-- An invocation the hook acts on (`nCode >= 0`) for a button-up at `(x, y)`. -/
def IsUp (c : MouseCall) (x y : Int) : Prop :=
  0 ≤ c.nCode ∧ c.wParam = WM_LBUTTONUP ∧ c.mouseStruct.Pt = ⟨x, y⟩

instance (c : MouseCall) (x y : Int) : Decidable (IsDown c x y) := by
  unfold IsDown; infer_instance

instance (c : MouseCall) (x y : Int) : Decidable (IsUp c x y) := by
  unfold IsUp; infer_instance

/-- An invocation that neither starts nor ends a drag: one the hook does not
act on (`nCode < 0`), or one that is no button-up and, if a button-down, comes
with the modifier not held. -/
def Inert (c : MouseCall) : Prop :=
  c.nCode < 0 ∨
    (c.wParam ≠ WM_LBUTTONUP ∧ (c.wParam = WM_LBUTTONDOWN → isCtrlPressed c.keyState = false))

instance (c : MouseCall) : Decidable (Inert c) := by
  unfold Inert; infer_instance

/-- Whether a sequence of invocations, met with the dragging flag at `drag`,
completes no drag: no button-up in it is acted on while the flag is set. -/
def completesNoDrag : Bool → List MouseCall → Bool
  | _, [] => true
  | drag, c :: cs =>
    if c.nCode < 0 then completesNoDrag drag cs
    else if c.wParam = WM_LBUTTONDOWN then completesNoDrag (drag || isCtrlPressed c.keyState) cs
    else if c.wParam = WM_LBUTTONUP then !drag && completesNoDrag false cs
    else completesNoDrag drag cs

/-- The rectangle with the axis-wise minimum and maximum of two points as corners. -/
def minMaxRect (sx sy ex ey : Int) : Rectangle :=
  ⟨⟨Min.min sx ex, Min.min sy ey⟩, ⟨Max.max sx ex, Max.max sy ey⟩⟩

/-! ## Vocabulary for statements about file names -/

/-- The number `k` in decimal, zero-padded on the left to at least three digits. -/
def zeroPad3 (k : Nat) : String :=
  String.mk (List.replicate (3 - (toString k).length) '0') ++ toString k

/-- The value of a decimal digit character. -/
def digitVal (c : Char) : Nat := c.toNat - 48

/-- The number a list of decimal digit characters denotes. -/
def decodeDec (cs : List Char) : Nat := cs.foldl (fun acc c => 10 * acc + digitVal c) 0

/-- The number of times the lock is acquired in a trace. -/
def lockCount : List Effect → Nat
  | [] => 0
  | Effect.Lock :: es => lockCount es + 1
  | _ :: es => lockCount es

/-- The calls to `CallNextHookEx` in a trace, with their arguments, in order. -/
def forwarded : List Effect → List (Nat × Nat × Nat × Nat)
  | [] => []
  | Effect.CallNextHookEx h n w l :: es => (h, n, w, l) :: forwarded es
  | _ :: es => forwarded es

/-! ## Sample inputs -/

/-- A hook invocation for pointer message `w` at `(x, y)` with `nCode = 0`;
`ks` is the answer of `GetAsyncKeyState(VK_CONTROL)`. -/
def sampleMouse (w : Nat) (x y : Int) (ks : Nat) : MouseCall :=
  { nCode := 0, wParam := w, lParam := 0,
    mouseStruct := { Pt := ⟨x, y⟩, MouseData := 0, Flags := 0, Time := 0, DwExtraInfo := 0 },
    keyState := ks, next := 0 }

/-- A hook invocation for keyboard message `w` with virtual-key code `vk`. -/
def sampleKey (n : Int) (w vk : Nat) : KeyCall :=
  { nCode := n, wParam := w, lParam := 0,
    kbdStruct := { VkCode := vk, ScanCode := 0, Flags := 0, Time := 0, DwExtraInfo := 0 },
    next := 7 }

/-- Collaborators that all succeed: image 1, file 2, no encoding error. -/
def okEnv : CaptureEnv :=
  { CaptureRect := fun _ => .ok 1, Create := fun _ => .ok 2, Encode := fun _ _ => none,
    Abs := fun n => "C:\\out\\" ++ n }

/-- Collaborators where the file creation fails. -/
def createFailsEnv : CaptureEnv :=
  { okEnv with Create := fun _ => .error "access denied" }

/-- An application object with a 300 by 200 committed rectangle and counter 1. -/
def sampleApp : CaptureApp :=
  { captureRegion := ⟨⟨100, 100⟩, ⟨400, 300⟩⟩, counter := 1, keyboardHook := 0, overlay := true }

/-- A state after one completed drag: the 300 by 200 rectangle is committed and
is the overlay's last rectangle; window handle 5, both hooks installed. -/
def sampleSys : Sys :=
  { app := { sampleApp with keyboardHook := 11 }
    ow := { hwnd := 5, startX := 100, startY := 100, endX := 400, endY := 300,
            isDragging := false, lastRect := ⟨⟨100, 100⟩, ⟨400, 300⟩⟩, hasApp := true,
            mouseHook := 12 } }

/-- Handles for one paint pass. -/
def sampleGdi : GdiEnv := { hdc := 21, pen := 22, oldPen := 23, oldBrush := 24, defRet := 0 }

end GoCapture

namespace GoCapture

/-! ## Shared lemmas -/

theorem min_eq (a b : Int) : min a b = Min.min a b := by
  unfold min
  split <;> omega

theorem max_eq (a b : Int) : max a b = Max.max a b := by
  unfold max
  split <;> omega

theorem Rect_min_max (sx sy ex ey : Int) :
    Rect (min sx ex) (min sy ey) (max sx ex) (max sy ey) = minMaxRect sx sy ex ey := by
  have hx : ¬ (Min.min sx ex > Max.max sx ex) := by omega
  have hy : ¬ (Min.min sy ey > Max.max sy ey) := by omega
  simp only [min_eq, max_eq, Rect, minMaxRect, if_neg hx, if_neg hy]

theorem minMaxRect_swap (sx sy ex ey : Int) :
    minMaxRect ex ey sx sy = minMaxRect sx sy ex ey := by
  simp only [minMaxRect, min_comm, max_comm]

theorem runMouse_cons (s : Sys) (c : MouseCall) (cs : List MouseCall) :
    (runMouse s (c :: cs)).1 = (runMouse (mouseCallback s c).1 cs).1 := rfl

theorem runMouse_append (s : Sys) (as bs : List MouseCall) :
    (runMouse s (as ++ bs)).1 = (runMouse (runMouse s as).1 bs).1 := by
  induction as generalizing s with
  | nil => rfl
  | cons a as ih => simp only [List.cons_append, runMouse_cons, ih]

/-- A button-down with the modifier held fixes both points and sets the flag. -/
theorem mouseCallback_down (s : Sys) (c : MouseCall) (x y : Int)
    (hd : IsDown c x y) (hc : isCtrlPressed c.keyState = true) :
    (mouseCallback s c).1 =
      { s with ow := { s.ow with startX := x, startY := y, endX := x, endY := y,
                                 isDragging := true } } := by
  obtain ⟨hn, hw, hp⟩ := hd
  simp [mouseCallback, mouseSwitch, hn, hw, hc, hp]

/-- A button-up while the flag is set commits the canonical rectangle. -/
theorem mouseCallback_up (s : Sys) (c : MouseCall) (x y : Int)
    (hu : IsUp c x y) (hdrag : s.ow.isDragging = true) (happ : s.ow.hasApp = true) :
    (mouseCallback s c).1 =
      { app := { s.app with captureRegion := minMaxRect s.ow.startX s.ow.startY x y }
        ow := { s.ow with endX := x, endY := y, isDragging := false,
                          lastRect := minMaxRect s.ow.startX s.ow.startY x y } } := by
  obtain ⟨hn, hw, hp⟩ := hu
  have h1 : WM_LBUTTONUP ≠ WM_LBUTTONDOWN := by decide
  have h2 : WM_LBUTTONUP ≠ WM_MOUSEMOVE := by decide
  simp [mouseCallback, mouseSwitch, hn, hw, hp, hdrag, happ, h1, h2, Rect_min_max, updateRegion]

/-- A pointer-move changes at most the end point. -/
theorem mouseCallback_move (s : Sys) (c : MouseCall) (hw : c.wParam = WM_MOUSEMOVE) :
    ∃ x y, (mouseCallback s c).1 = { s with ow := { s.ow with endX := x, endY := y } } := by
  have h1 : WM_MOUSEMOVE ≠ WM_LBUTTONDOWN := by decide
  unfold mouseCallback mouseSwitch
  by_cases hn : c.nCode ≥ 0
  · by_cases hg : (s.ow.isDragging && isCtrlPressed c.keyState) = true
    · exact ⟨c.mouseStruct.Pt.X, c.mouseStruct.Pt.Y, by simp [hn, hw, h1, hg]⟩
    · exact ⟨s.ow.endX, s.ow.endY, by simp [hn, hw, h1, hg]⟩
  · exact ⟨s.ow.endX, s.ow.endY, by simp [hn]⟩

/-- A run of pointer-moves changes at most the end point. -/
theorem runMouse_moves (s : Sys) (ms : List MouseCall)
    (hms : ∀ m ∈ ms, m.wParam = WM_MOUSEMOVE) :
    ∃ x y, (runMouse s ms).1 = { s with ow := { s.ow with endX := x, endY := y } } := by
  induction ms generalizing s with
  | nil => exact ⟨s.ow.endX, s.ow.endY, rfl⟩
  | cons m ms ih =>
    obtain ⟨x, y, h⟩ := mouseCallback_move s m (hms m (List.mem_cons_self _ _))
    obtain ⟨x', y', h'⟩ := ih (mouseCallback s m).1 (fun m' hm' => hms m' (List.mem_cons_of_mem _ hm'))
    refine ⟨x', y', ?_⟩
    rw [runMouse_cons, h', h]

/-! ## Selection state machine -/

/-- C1: a drag from a button-down at (sx, sy) with the modifier held to a
button-up at (ex, ey) commits the rectangle whose corners are the axis-wise
minimum and maximum of the two points; the drag in the opposite direction
commits the same rectangle; and the committed rectangle has Min.X <= Max.X and
Min.Y <= Max.Y. -/
theorem drag_commits_axiswise_min_max (s : Sys) (d u d' u' : MouseCall) (sx sy ex ey : Int)
    (happ : s.ow.hasApp = true)
    (hd : IsDown d sx sy) (hc : isCtrlPressed d.keyState = true) (hu : IsUp u ex ey)
    (hd' : IsDown d' ex ey) (hc' : isCtrlPressed d'.keyState = true) (hu' : IsUp u' sx sy) :
    (runMouse s [d, u]).1.app.captureRegion
        = ⟨⟨Min.min sx ex, Min.min sy ey⟩, ⟨Max.max sx ex, Max.max sy ey⟩⟩ ∧
    (runMouse s [d', u']).1.app.captureRegion = (runMouse s [d, u]).1.app.captureRegion ∧
    (runMouse s [d, u]).1.app.captureRegion.Min.X ≤ (runMouse s [d, u]).1.app.captureRegion.Max.X ∧
    (runMouse s [d, u]).1.app.captureRegion.Min.Y ≤ (runMouse s [d, u]).1.app.captureRegion.Max.Y ∧
    (runMouse s [d, u]).1.ow.isDragging = false := by
  have hdn := mouseCallback_down s d sx sy hd hc
  have hdn' := mouseCallback_down s d' ex ey hd' hc'
  have hup := mouseCallback_up (mouseCallback s d).1 u ex ey hu (by rw [hdn]) (by rw [hdn]; exact happ)
  have hup' := mouseCallback_up (mouseCallback s d').1 u' sx sy hu' (by rw [hdn'])
    (by rw [hdn']; exact happ)
  have h1 : (runMouse s [d, u]).1.app.captureRegion = minMaxRect sx sy ex ey := by
    rw [runMouse_cons, runMouse_cons, hup, hdn]
    rfl
  have h2 : (runMouse s [d', u']).1.app.captureRegion = minMaxRect ex ey sx sy := by
    rw [runMouse_cons, runMouse_cons, hup', hdn']
    rfl
  have h3 : (runMouse s [d, u]).1.ow.isDragging = false := by
    rw [runMouse_cons, runMouse_cons, hup]
    rfl
  refine ⟨h1, ?_, ?_, ?_, h3⟩
  · rw [h1, h2, minMaxRect_swap]
  · rw [h1]; exact min_le_max
  · rw [h1]; exact min_le_max

/-- Witness for C1: the drag (100,100) -> (400,300) from the initial state, and
its reverse, commit the 300 by 200 rectangle. -/
theorem drag_commits_axiswise_min_max_witness :
    initial.ow.hasApp = true ∧
    IsDown (sampleMouse WM_LBUTTONDOWN 100 100 0x8000) 100 100 ∧
    IsUp (sampleMouse WM_LBUTTONUP 400 300 0) 400 300 ∧
    (runMouse initial [sampleMouse WM_LBUTTONDOWN 100 100 0x8000,
        sampleMouse WM_LBUTTONUP 400 300 0]).1.app.captureRegion = ⟨⟨100, 100⟩, ⟨400, 300⟩⟩ ∧
    (runMouse initial [sampleMouse WM_LBUTTONDOWN 400 300 0x8000,
        sampleMouse WM_LBUTTONUP 100 100 0]).1.app.captureRegion
      = (runMouse initial [sampleMouse WM_LBUTTONDOWN 100 100 0x8000,
          sampleMouse WM_LBUTTONUP 400 300 0]).1.app.captureRegion ∧
    (⟨⟨100, 100⟩, ⟨400, 300⟩⟩ : Rectangle).Dx = 300 ∧
    (⟨⟨100, 100⟩, ⟨400, 300⟩⟩ : Rectangle).Dy = 200 :=
  have h := drag_commits_axiswise_min_max initial
    (sampleMouse WM_LBUTTONDOWN 100 100 0x8000) (sampleMouse WM_LBUTTONUP 400 300 0)
    (sampleMouse WM_LBUTTONDOWN 400 300 0x8000) (sampleMouse WM_LBUTTONUP 100 100 0)
    100 100 400 300 rfl (by decide) (by decide) (by decide) (by decide) (by decide) (by decide)
  ⟨rfl, by decide, by decide, h.1, h.2.1, by decide, by decide⟩

/-- C5: a button-down while the modifier is not held changes nothing: the
whole state (start point, end point, dragging flag, last rectangle, committed
rectangle) is as before and the only call made is the forwarding to the next
hook; from Idle the state is still Idle, and a button-up that follows leaves
the state unchanged too and reaches neither `updateRegion` nor a redraw. -/
theorem down_without_modifier_is_noop (s : Sys) (c u : MouseCall)
    (hw : c.wParam = WM_LBUTTONDOWN) (hc : isCtrlPressed c.keyState = false) :
    mouseCallback s c
      = (s, [Effect.CallNextHookEx 0 (uintptrOf c.nCode) c.wParam c.lParam], c.next) ∧
    (s.ow.isDragging = false → (mouseCallback s c).1.ow.isDragging = false) ∧
    (s.ow.isDragging = false → u.wParam = WM_LBUTTONUP →
      runMouse s [c, u]
        = (s, [Effect.CallNextHookEx 0 (uintptrOf c.nCode) c.wParam c.lParam,
               Effect.CallNextHookEx 0 (uintptrOf u.nCode) u.wParam u.lParam])) := by
  have h1 : mouseCallback s c
      = (s, [Effect.CallNextHookEx 0 (uintptrOf c.nCode) c.wParam c.lParam], c.next) := by
    unfold mouseCallback mouseSwitch
    by_cases hn : c.nCode ≥ 0 <;> simp [hn, hw, hc]
  refine ⟨h1, ?_, ?_⟩
  · intro hidle
    rw [h1]; exact hidle
  · intro hidle hu
    have e1 : WM_LBUTTONUP ≠ WM_LBUTTONDOWN := by decide
    have e2 : WM_LBUTTONUP ≠ WM_MOUSEMOVE := by decide
    have h2 : mouseCallback s u
        = (s, [Effect.CallNextHookEx 0 (uintptrOf u.nCode) u.wParam u.lParam], u.next) := by
      unfold mouseCallback mouseSwitch
      by_cases hn : u.nCode ≥ 0 <;> simp [hn, hu, e1, e2, hidle]
    simp only [runMouse, h1, h2, List.append_nil, List.singleton_append]

/-- Witness for C5: from the initial state, a button-down without the modifier
followed by a button-up leaves the initial state in place. -/
theorem down_without_modifier_is_noop_witness :
    (sampleMouse WM_LBUTTONDOWN 100 100 0).wParam = WM_LBUTTONDOWN ∧
    isCtrlPressed (sampleMouse WM_LBUTTONDOWN 100 100 0).keyState = false ∧
    (runMouse initial [sampleMouse WM_LBUTTONDOWN 100 100 0,
        sampleMouse WM_LBUTTONUP 400 300 0]).1 = initial :=
  ⟨rfl, by decide,
   congrArg Prod.fst
     ((down_without_modifier_is_noop initial (sampleMouse WM_LBUTTONDOWN 100 100 0)
        (sampleMouse WM_LBUTTONUP 400 300 0) rfl (by decide)).2.2 rfl rfl)⟩

/-- C6: after a button-down at (sx, sy) with the modifier held, every run of
pointer-move invocations (modifier held or not, acted on or not, at any points)
leaves the state Dragging with the start point fixed, and the button-up at
(ex, ey) returns to Idle and commits the axis-wise min/max rectangle of the
start and the release point, whatever the moves were. -/
theorem drag_survives_moves_and_modifier_release (s : Sys) (d u : MouseCall)
    (ms : List MouseCall) (sx sy ex ey : Int)
    (happ : s.ow.hasApp = true)
    (hd : IsDown d sx sy) (hc : isCtrlPressed d.keyState = true)
    (hms : ∀ m ∈ ms, m.wParam = WM_MOUSEMOVE) (hu : IsUp u ex ey) :
    (∀ k, (runMouse s (d :: ms.take k)).1.ow.isDragging = true ∧
          (runMouse s (d :: ms.take k)).1.ow.startX = sx ∧
          (runMouse s (d :: ms.take k)).1.ow.startY = sy ∧
          (runMouse s (d :: ms.take k)).1.app = s.app) ∧
    (runMouse s (d :: ms ++ [u])).1.ow.isDragging = false ∧
    (runMouse s (d :: ms ++ [u])).1.app.captureRegion
        = ⟨⟨Min.min sx ex, Min.min sy ey⟩, ⟨Max.max sx ex, Max.max sy ey⟩⟩ ∧
    (runMouse s (d :: ms ++ [u])).1.ow.lastRect
        = ⟨⟨Min.min sx ex, Min.min sy ey⟩, ⟨Max.max sx ex, Max.max sy ey⟩⟩ := by
  have hmoves : ∀ ns : List MouseCall, (∀ m ∈ ns, m.wParam = WM_MOUSEMOVE) →
      ∃ x y, (runMouse s (d :: ns)).1 =
        { s with ow := { s.ow with startX := sx, startY := sy, endX := x, endY := y,
                                   isDragging := true } } := by
    intro ns hns
    obtain ⟨x, y, h⟩ := runMouse_moves (mouseCallback s d).1 ns hns
    refine ⟨x, y, ?_⟩
    rw [runMouse_cons, h, mouseCallback_down s d sx sy hd hc]
  refine ⟨?_, ?_⟩
  · intro k
    obtain ⟨x, y, h⟩ := hmoves (ms.take k) (fun m hm => hms m (List.mem_of_mem_take hm))
    rw [h]
    exact ⟨rfl, rfl, rfl, rfl⟩
  · obtain ⟨x, y, h⟩ := hmoves ms hms
    have hfin : (runMouse s (d :: ms ++ [u])).1 = (mouseCallback (runMouse s (d :: ms)).1 u).1 := by
      rw [runMouse_append]
      rfl
    have hup := mouseCallback_up (runMouse s (d :: ms)).1 u ex ey hu (by rw [h])
      (by rw [h]; exact happ)
    rw [hfin, hup, h]
    exact ⟨rfl, rfl, rfl⟩

/-- Witness for C6: button-down at (100,100) with the modifier, a move with the
modifier held, a move with it released, button-up at (400,300). -/
theorem drag_survives_moves_and_modifier_release_witness :
    initial.ow.hasApp = true ∧
    IsDown (sampleMouse WM_LBUTTONDOWN 100 100 0x8000) 100 100 ∧
    isCtrlPressed (sampleMouse WM_MOUSEMOVE 900 50 0).keyState = false ∧
    (runMouse initial (sampleMouse WM_LBUTTONDOWN 100 100 0x8000 ::
        [sampleMouse WM_MOUSEMOVE 250 250 0x8000, sampleMouse WM_MOUSEMOVE 900 50 0] ++
        [sampleMouse WM_LBUTTONUP 400 300 0])).1.app.captureRegion
      = ⟨⟨100, 100⟩, ⟨400, 300⟩⟩ :=
  ⟨rfl, by decide, by decide,
   (drag_survives_moves_and_modifier_release initial (sampleMouse WM_LBUTTONDOWN 100 100 0x8000)
      (sampleMouse WM_LBUTTONUP 400 300 0)
      [sampleMouse WM_MOUSEMOVE 250 250 0x8000, sampleMouse WM_MOUSEMOVE 900 50 0]
      100 100 400 300 rfl (by decide) (by decide) (by decide) (by decide)).2.2.1⟩

/-! ## Capture coordinator -/

theorem captureScreen_empty (env : CaptureEnv) (app : CaptureApp)
    (hempty : app.captureRegion.Empty = true) :
    captureScreen env app
      = ⟨app, some "no capture region selected", [Effect.Lock, Effect.Unlock]⟩ := by
  simp [captureScreen, hempty]

/-- The five ways through `captureScreen`. -/
theorem captureScreen_cases (env : CaptureEnv) (app : CaptureApp) :
    (app.captureRegion.Empty = true ∧ captureScreen env app
      = ⟨app, some "no capture region selected", [Effect.Lock, Effect.Unlock]⟩) ∨
    (app.captureRegion.Empty = false ∧ ∃ e, env.CaptureRect app.captureRegion = .error e ∧
      captureScreen env app = ⟨app, some ("failed to capture screenshot: " ++ e),
        [Effect.Lock, Effect.CaptureRect app.captureRegion, Effect.Unlock]⟩) ∨
    (app.captureRegion.Empty = false ∧ ∃ img e, env.CaptureRect app.captureRegion = .ok img ∧
      env.Create (filename app.counter) = .error e ∧
      captureScreen env app = ⟨{ app with counter := wrapInt64 (app.counter + 1) },
        some ("failed to create file: " ++ e),
        [Effect.Lock, Effect.CaptureRect app.captureRegion, Effect.Create (filename app.counter),
         Effect.Unlock]⟩) ∨
    (app.captureRegion.Empty = false ∧ ∃ img file e,
      env.CaptureRect app.captureRegion = .ok img ∧
      env.Create (filename app.counter) = .ok file ∧ env.Encode file img = some e ∧
      captureScreen env app = ⟨{ app with counter := wrapInt64 (app.counter + 1) },
        some ("failed to encode PNG: " ++ e),
        [Effect.Lock, Effect.CaptureRect app.captureRegion, Effect.Create (filename app.counter),
         Effect.Encode file img, Effect.Close file, Effect.Unlock]⟩) ∨
    (app.captureRegion.Empty = false ∧ ∃ img file,
      env.CaptureRect app.captureRegion = .ok img ∧
      env.Create (filename app.counter) = .ok file ∧ env.Encode file img = none ∧
      captureScreen env app = ⟨{ app with counter := wrapInt64 (app.counter + 1) }, none,
        [Effect.Lock, Effect.CaptureRect app.captureRegion, Effect.Create (filename app.counter),
         Effect.Encode file img,
         Effect.Stdout ("Screenshot saved: " ++ env.Abs (filename app.counter) ++ "\n"),
         Effect.Close file, Effect.Unlock]⟩) := by
  by_cases hE : app.captureRegion.Empty = true
  · exact Or.inl ⟨hE, by simp [captureScreen, hE]⟩
  · have hE' : app.captureRegion.Empty = false := by simpa using hE
    cases hg : env.CaptureRect app.captureRegion with
    | error e =>
      exact Or.inr (Or.inl ⟨hE', e, rfl, by simp [captureScreen, hE', hg]⟩)
    | ok img =>
      cases hc : env.Create (filename app.counter) with
      | error e =>
        exact Or.inr (Or.inr (Or.inl ⟨hE', img, e, rfl, rfl, by simp [captureScreen, hE', hg, hc]⟩))
      | ok file =>
        cases he : env.Encode file img with
        | some e =>
          exact Or.inr (Or.inr (Or.inr (Or.inl
            ⟨hE', img, file, e, rfl, rfl, he, by simp [captureScreen, hE', hg, hc, he]⟩)))
        | none =>
          exact Or.inr (Or.inr (Or.inr (Or.inr
            ⟨hE', img, file, rfl, rfl, he, by simp [captureScreen, hE', hg, hc, he]⟩)))

theorem captureScreen_region (env : CaptureEnv) (app : CaptureApp) :
    (captureScreen env app).app.captureRegion = app.captureRegion := by
  rcases captureScreen_cases env app with ⟨_, h⟩ | ⟨_, _, _, h⟩ | ⟨_, _, _, _, _, h⟩ |
    ⟨_, _, _, _, _, _, _, h⟩ | ⟨_, _, _, _, _, _, h⟩ <;> rw [h]

theorem grabbedRects_captureScreen (env : CaptureEnv) (app : CaptureApp) :
    grabbedRects (captureScreen env app).trace
      = if app.captureRegion.Empty then [] else [app.captureRegion] := by
  rcases captureScreen_cases env app with ⟨hE, h⟩ | ⟨hE, _, _, h⟩ | ⟨hE, _, _, _, _, h⟩ |
    ⟨hE, _, _, _, _, _, _, h⟩ | ⟨hE, _, _, _, _, _, h⟩ <;> rw [h, hE] <;> rfl

theorem wrapInt64_succ_ne (c : Int) : wrapInt64 (c + 1) ≠ c := by
  unfold wrapInt64
  omega

theorem wrapInt64_of_range (c : Int) (h1 : -9223372036854775808 ≤ c)
    (h2 : c < 9223372036854775808) : wrapInt64 c = c := by
  unfold wrapInt64
  omega

/-- C2: when the committed rectangle is empty, `captureScreen` returns the
error "no capture region selected", takes and releases the lock and does
nothing else (no frame grab, no file creation), and leaves the application
object, counter included, as it was; the never-set rectangle of the initial
state is empty and there the counter stays 1; and a rectangle committed by a
drag whose start and end share an x or a y coordinate is empty. -/
theorem capture_on_empty_region_fails (env : CaptureEnv) (app : CaptureApp)
    (hempty : app.captureRegion.Empty = true) :
    (captureScreen env app).err = some "no capture region selected" ∧
    (captureScreen env app).trace = [Effect.Lock, Effect.Unlock] ∧
    grabbedRects (captureScreen env app).trace = [] ∧
    createdFiles (captureScreen env app).trace = [] ∧
    (captureScreen env app).app = app ∧
    (captureScreen env app).app.counter = app.counter ∧
    initial.app.captureRegion.Empty = true ∧
    (captureScreen env initial.app).app.counter = 1 ∧
    (∀ (s : Sys) (d u : MouseCall) (sx sy ex ey : Int), s.ow.hasApp = true →
      IsDown d sx sy → isCtrlPressed d.keyState = true → IsUp u ex ey → (sx = ex ∨ sy = ey) →
      (runMouse s [d, u]).1.app.captureRegion.Empty = true) := by
  rw [captureScreen_empty env app hempty]
  refine ⟨rfl, rfl, rfl, rfl, rfl, rfl, by decide, ?_, ?_⟩
  · rw [captureScreen_empty env initial.app (by decide)]
    rfl
  · intro s d u sx sy ex ey happ hd hc hu hshare
    have hdn := mouseCallback_down s d sx sy hd hc
    have hup := mouseCallback_up (mouseCallback s d).1 u ex ey hu (by rw [hdn])
      (by rw [hdn]; exact happ)
    have h1 : (runMouse s [d, u]).1.app.captureRegion = minMaxRect sx sy ex ey := by
      rw [runMouse_cons, runMouse_cons, hup, hdn]
      rfl
    rw [h1]
    simp only [Rectangle.Empty, minMaxRect, Bool.or_eq_true, decide_eq_true_eq]
    rcases hshare with h | h
    · left; subst h; simp
    · right; subst h; simp

/-- Witness for C2: the application object of the initial state. -/
theorem capture_on_empty_region_fails_witness :
    initial.app.captureRegion.Empty = true ∧
    (captureScreen okEnv initial.app).err = some "no capture region selected" ∧
    (captureScreen okEnv initial.app).app.counter = 1 :=
  have h := capture_on_empty_region_fails okEnv initial.app (by decide)
  ⟨by decide, h.1, h.2.2.2.2.2.1⟩

/-- Counterexample to C3: with a non-empty committed rectangle and counter 1,
a failing file creation makes `captureScreen` return an error while the
counter has become 2. -/
theorem create_failure_consumes_counter :
    sampleApp.captureRegion.Empty = false ∧
    sampleApp.counter = 1 ∧
    (captureScreen createFailsEnv sampleApp).err = some "failed to create file: access denied" ∧
    (captureScreen createFailsEnv sampleApp).app.counter = 2 := by
  refine ⟨by decide, rfl, ?_, ?_⟩
  · simp [captureScreen, createFailsEnv, okEnv, sampleApp, Rectangle.Empty]
  · simp [captureScreen, createFailsEnv, okEnv, sampleApp, Rectangle.Empty, wrapInt64]

/-- C3 as amended: with a non-empty committed rectangle, a failing frame grab
makes `captureScreen` return an error with the counter unchanged; once the
frame grab has succeeded the counter is incremented (in 64-bit arithmetic, so
it differs from the value before), whether the file creation and the PNG
encoding then succeed (no error) or one of them fails (an error is returned);
the committed rectangle is never changed. -/
theorem counter_consumed_once_grab_succeeds (env : CaptureEnv) (app : CaptureApp)
    (hne : app.captureRegion.Empty = false) :
    (∀ e, env.CaptureRect app.captureRegion = .error e →
      (captureScreen env app).err = some ("failed to capture screenshot: " ++ e) ∧
      (captureScreen env app).app.counter = app.counter) ∧
    (∀ img e, env.CaptureRect app.captureRegion = .ok img →
      env.Create (filename app.counter) = .error e →
      (captureScreen env app).err = some ("failed to create file: " ++ e) ∧
      (captureScreen env app).app.counter = wrapInt64 (app.counter + 1) ∧
      (captureScreen env app).app.counter ≠ app.counter) ∧
    (∀ img file e, env.CaptureRect app.captureRegion = .ok img →
      env.Create (filename app.counter) = .ok file → env.Encode file img = some e →
      (captureScreen env app).err = some ("failed to encode PNG: " ++ e) ∧
      (captureScreen env app).app.counter = wrapInt64 (app.counter + 1) ∧
      (captureScreen env app).app.counter ≠ app.counter) ∧
    (∀ img file, env.CaptureRect app.captureRegion = .ok img →
      env.Create (filename app.counter) = .ok file → env.Encode file img = none →
      (captureScreen env app).err = none ∧
      (captureScreen env app).app.counter = wrapInt64 (app.counter + 1) ∧
      (captureScreen env app).app.counter ≠ app.counter) ∧
    (captureScreen env app).app.captureRegion = app.captureRegion := by
  refine ⟨?_, ?_, ?_, ?_, captureScreen_region env app⟩
  · intro e hg
    simp [captureScreen, hne, hg]
  · intro img e hg hcr
    simp [captureScreen, hne, hg, hcr, wrapInt64_succ_ne]
  · intro img file e hg hcr hen
    simp [captureScreen, hne, hg, hcr, hen, wrapInt64_succ_ne]
  · intro img file hg hcr hen
    simp [captureScreen, hne, hg, hcr, hen, wrapInt64_succ_ne]

/-- Witness for C3 as amended: the sample application object with a failing
file creation. -/
theorem counter_consumed_once_grab_succeeds_witness :
    sampleApp.captureRegion.Empty = false ∧
    (captureScreen createFailsEnv sampleApp).app.counter ≠ sampleApp.counter :=
  ⟨by decide,
   ((counter_consumed_once_grab_succeeds createFailsEnv sampleApp (by decide)).2.1
      1 "access denied" rfl rfl).2.2⟩

/-- Counterexample to C9: in a successful capture the frame grab, the file
creation, the PNG encoding and the console output all happen between the
acquisition of the lock and its release. -/
theorem capture_io_under_lock_example :
    (captureScreen okEnv sampleApp).trace
      = [Effect.Lock, Effect.CaptureRect ⟨⟨100, 100⟩, ⟨400, 300⟩⟩,
         Effect.Create "capture_001.png", Effect.Encode 2 1,
         Effect.Stdout "Screenshot saved: C:\\out\\capture_001.png\n",
         Effect.Close 2, Effect.Unlock] ∧
    ioUnderLock false (captureScreen okEnv sampleApp).trace = true := by
  have h : (captureScreen okEnv sampleApp).trace
      = [Effect.Lock, Effect.CaptureRect ⟨⟨100, 100⟩, ⟨400, 300⟩⟩,
         Effect.Create "capture_001.png", Effect.Encode 2 1,
         Effect.Stdout "Screenshot saved: C:\\out\\capture_001.png\n",
         Effect.Close 2, Effect.Unlock] := by
    simp [captureScreen, okEnv, sampleApp, Rectangle.Empty]
    decide
  refine ⟨h, ?_⟩
  rw [h]
  rfl

/-- C9 as amended: in every execution of `captureScreen` the lock is acquired
first and released last by the deferred unlock, with no release in between, so
every other call of the execution is made while the lock is held; I/O is
performed under the lock exactly when the committed rectangle is non-empty;
and `updateRegion` prints its console line under the lock too. -/
theorem capture_holds_lock_throughout (env : CaptureEnv) (app : CaptureApp) (rect : Rectangle) :
    (∃ body, (captureScreen env app).trace = Effect.Lock :: body ++ [Effect.Unlock] ∧
      Effect.Lock ∉ body ∧ Effect.Unlock ∉ body) ∧
    ioUnderLock false (captureScreen env app).trace = !app.captureRegion.Empty ∧
    ioUnderLock false (updateRegion app rect).2 = true := by
  refine ⟨?_, ?_, rfl⟩
  · rcases captureScreen_cases env app with ⟨_, h⟩ | ⟨_, _, _, h⟩ | ⟨_, _, _, _, _, h⟩ |
      ⟨_, _, _, _, _, _, _, h⟩ | ⟨_, _, _, _, _, _, h⟩ <;> rw [h]
    · exact ⟨[], rfl, by simp, by simp⟩
    · exact ⟨[_], rfl, by simp, by simp⟩
    · exact ⟨[_, _], rfl, by simp, by simp⟩
    · exact ⟨[_, _, _, _], rfl, by simp, by simp⟩
    · exact ⟨[_, _, _, _, _], rfl, by simp, by simp⟩
  · rcases captureScreen_cases env app with ⟨hE, h⟩ | ⟨hE, _, _, h⟩ | ⟨hE, _, _, _, _, h⟩ |
      ⟨hE, _, _, _, _, _, _, h⟩ | ⟨hE, _, _, _, _, _, h⟩ <;> rw [h, hE] <;> rfl

/-! ## File names -/

theorem digitVal_digitChar (m : Nat) (h : m < 10) : digitVal (Nat.digitChar m) = m := by
  interval_cases m <;> rfl

theorem foldl_toDigitsCore (fuel : Nat) :
    ∀ (n : Nat) (ds : List Char), n < fuel →
      List.foldl (fun acc c => 10 * acc + digitVal c) 0 (Nat.toDigitsCore 10 fuel n ds)
        = List.foldl (fun acc c => 10 * acc + digitVal c) n ds := by
  induction fuel with
  | zero => intro n ds h; omega
  | succ fuel ih =>
    intro n ds h
    unfold Nat.toDigitsCore
    by_cases h0 : n / 10 = 0
    · have hn : n < 10 := by omega
      simp only [h0, if_true, List.foldl_cons, Nat.mul_zero, Nat.zero_add]
      rw [digitVal_digitChar _ (Nat.mod_lt _ (by decide)), Nat.mod_eq_of_lt hn]
    · simp only [h0, if_false]
      rw [ih (n / 10) _ (by omega)]
      simp only [List.foldl_cons]
      rw [digitVal_digitChar _ (Nat.mod_lt _ (by decide))]
      congr 1
      omega

theorem decodeDec_toDigits (n : Nat) : decodeDec (Nat.toDigits 10 n) = n := by
  unfold decodeDec Nat.toDigits
  rw [foldl_toDigitsCore (n + 1) n [] (by omega)]
  rfl

theorem decodeDec_replicate_zero (j : Nat) (l : List Char) :
    decodeDec (List.replicate j '0' ++ l) = decodeDec l := by
  unfold decodeDec
  induction j with
  | zero => rfl
  | succ j ih =>
    rw [List.replicate_succ, List.cons_append, List.foldl_cons]
    exact ih

theorem zeroPad3_data (k : Nat) :
    (zeroPad3 k).data
      = List.replicate (3 - (Nat.toDigits 10 k).length) '0' ++ Nat.toDigits 10 k := by
  simp [zeroPad3, toString, Nat.repr, List.asString, String.length]

theorem decodeDec_zeroPad3 (k : Nat) : decodeDec (zeroPad3 k).data = k := by
  rw [zeroPad3_data, decodeDec_replicate_zero, decodeDec_toDigits]

theorem zeroPad3_injective (a b : Nat) (h : zeroPad3 a = zeroPad3 b) : a = b := by
  rw [← decodeDec_zeroPad3 a, ← decodeDec_zeroPad3 b, h]

theorem fmtD03_natCast (k : Nat) : fmtD03 (k : Int) = zeroPad3 k := by
  have h : ¬ ((k : Int) < 0) := by omega
  apply String.ext
  rw [zeroPad3_data]
  simp [fmtD03, h]

theorem captureName_injective (a b : Nat)
    (h : "capture_" ++ zeroPad3 a ++ ".png" = "capture_" ++ zeroPad3 b ++ ".png") : a = b := by
  apply zeroPad3_injective
  have h' := congrArg String.data h
  simp only [String.data_append] at h'
  exact String.ext (List.append_cancel_left (List.append_cancel_right h'))

theorem createdFiles_append (as bs : List Effect) :
    createdFiles (as ++ bs) = createdFiles as ++ createdFiles bs := by
  induction as with
  | nil => rfl
  | cons a as ih => cases a <;> simp [createdFiles, ih]

theorem grabbedRects_append (as bs : List Effect) :
    grabbedRects (as ++ bs) = grabbedRects as ++ grabbedRects bs := by
  induction as with
  | nil => rfl
  | cons a as ih => cases a <;> simp [grabbedRects, ih]

/-- A call of `captureScreen` that returns nil created exactly the file named
after the counter and incremented the counter. -/
theorem captureScreen_ok (env : CaptureEnv) (app : CaptureApp)
    (hok : (captureScreen env app).err = none) :
    (captureScreen env app).app = { app with counter := wrapInt64 (app.counter + 1) } ∧
    createdFiles (captureScreen env app).trace = [filename app.counter] ∧
    app.captureRegion.Empty = false := by
  rcases captureScreen_cases env app with ⟨_, h⟩ | ⟨_, _, _, h⟩ | ⟨_, _, _, _, _, h⟩ |
    ⟨_, _, _, _, _, _, _, h⟩ | ⟨hE, _, _, _, _, _, h⟩
  · rw [h] at hok; simp at hok
  · rw [h] at hok; simp at hok
  · rw [h] at hok; simp at hok
  · rw [h] at hok; simp at hok
  · rw [h]; exact ⟨rfl, rfl, hE⟩

/-- Successive successful captures from counter `c` create the files numbered
`c`, `c + 1`, ... in order, as long as the counter stays in range. -/
theorem captureSeq_ok (envs : List CaptureEnv) :
    ∀ (app : CaptureApp) (c : Nat), app.counter = (c : Int) →
      ((c + envs.length : Nat) : Int) < 9223372036854775808 →
      (∀ e ∈ (captureSeq app envs).2.1, e = none) →
      createdFiles (captureSeq app envs).2.2
        = (List.range' c envs.length).map (fun k => "capture_" ++ zeroPad3 k ++ ".png") ∧
      (captureSeq app envs).1.counter = ((c + envs.length : Nat) : Int) := by
  induction envs with
  | nil =>
    intro app c hc _ _
    exact ⟨rfl, by simpa [captureSeq] using hc⟩
  | cons env envs ih =>
    intro app c hc hlen hok
    have hhead : (captureScreen env app).err = none :=
      hok _ (by simp [captureSeq])
    obtain ⟨happ, hfiles, _⟩ := captureScreen_ok env app hhead
    have hlen' : ((c + 1 + envs.length : Nat) : Int) < 9223372036854775808 := by
      simp only [List.length_cons] at hlen
      omega
    have hcount : (captureScreen env app).app.counter = ((c + 1 : Nat) : Int) := by
      rw [happ]
      show wrapInt64 (app.counter + 1) = _
      rw [hc, wrapInt64_of_range _ (by omega) (by omega)]
      omega
    have hrest := ih (captureScreen env app).app (c + 1) hcount hlen'
      (fun e he => hok e (by simp only [captureSeq, List.mem_cons]; exact Or.inr he))
    constructor
    · show createdFiles ((captureScreen env app).trace ++ _) = _
      rw [createdFiles_append, hfiles, hrest.1]
      simp only [List.length_cons, List.range'_succ, List.map_cons, List.singleton_append]
      rw [filename, hc, fmtD03_natCast]
    · show (captureSeq (captureScreen env app).app envs).1.counter = _
      rw [hrest.2]
      simp only [List.length_cons]
      omega

/-- C4: from counter 1, n successive calls of `captureScreen` that all return
nil (which they can only do on a non-empty committed rectangle) create, in
order, the files "capture_" ++ k zero-padded to at least three digits ++ ".png"
for k = 1, ..., n, all names distinct, and leave the counter at n + 1 (n within
the range of the 64-bit counter). -/
theorem successive_captures_number_files (envs : List CaptureEnv) (app : CaptureApp)
    (hc : app.counter = 1)
    (hlen : (envs.length : Int) < 9223372036854775807)
    (hok : ∀ e ∈ (captureSeq app envs).2.1, e = none) :
    createdFiles (captureSeq app envs).2.2
      = (List.range' 1 envs.length).map (fun k => "capture_" ++ zeroPad3 k ++ ".png") ∧
    (createdFiles (captureSeq app envs).2.2).Nodup ∧
    (captureSeq app envs).1.counter = (envs.length : Int) + 1 ∧
    (captureSeq app envs).2.1.length = envs.length ∧
    (envs ≠ [] → app.captureRegion.Empty = false) := by
  have h := captureSeq_ok envs app 1 (by simpa using hc) (by push_cast; omega) hok
  refine ⟨h.1, ?_, ?_, ?_, ?_⟩
  rotate_left 3
  · intro hne
    cases envs with
    | nil => exact absurd rfl hne
    | cons env envs => exact (captureScreen_ok env app (hok _ (by simp [captureSeq]))).2.2
  · rw [h.1]
    exact (List.nodup_range' 1 envs.length).map (fun a b hab => captureName_injective a b hab)
  · rw [h.2]; push_cast; omega
  · clear h hok hlen hc
    induction envs generalizing app with
    | nil => rfl
    | cons env envs ih => simp [captureSeq, ih]

/-- Witness for C4: three successful captures from the sample application object. -/
theorem successive_captures_number_files_witness :
    sampleApp.counter = 1 ∧ sampleApp.captureRegion.Empty = false ∧
    (∀ e ∈ (captureSeq sampleApp [okEnv, okEnv, okEnv]).2.1, e = none) ∧
    createdFiles (captureSeq sampleApp [okEnv, okEnv, okEnv]).2.2
      = ["capture_001.png", "capture_002.png", "capture_003.png"] ∧
    (captureSeq sampleApp [okEnv, okEnv, okEnv]).1.counter = 4 :=
  have hok : ∀ e ∈ (captureSeq sampleApp [okEnv, okEnv, okEnv]).2.1, e = none := by
    simp [captureSeq, captureScreen, okEnv, sampleApp, Rectangle.Empty]
  have h := successive_captures_number_files [okEnv, okEnv, okEnv] sampleApp rfl
    (by decide) hok
  ⟨rfl, by decide, hok, h.1.trans (by decide), h.2.2.1⟩

/-! ## Which rectangle a capture uses -/

theorem mouseCallback_hasApp (s : Sys) (c : MouseCall) :
    (mouseCallback s c).1.ow.hasApp = s.ow.hasApp := by
  unfold mouseCallback mouseSwitch
  simp only []
  split_ifs <;> rfl

theorem runMouse_hasApp (s : Sys) (cs : List MouseCall) :
    (runMouse s cs).1.ow.hasApp = s.ow.hasApp := by
  induction cs generalizing s with
  | nil => rfl
  | cons c cs ih => rw [runMouse_cons, ih, mouseCallback_hasApp]

/-- In every state the pointer hook reaches from the state `main` builds, the
overlay's `app` pointer is set. -/
theorem runMouse_initial_hasApp (cs : List MouseCall) :
    (runMouse initial cs).1.ow.hasApp = true := by
  rw [runMouse_hasApp]
  rfl

/-- The keyboard hook never touches the overlay object. -/
theorem hookCallback_ow (env : CaptureEnv) (s : Sys) (k : KeyCall) :
    (hookCallback env s k).sys.ow = s.ow := by
  unfold hookCallback passOn
  split_ifs <;> rfl

/-- An inert invocation changes at most the end point. -/
theorem mouseCallback_inert (s : Sys) (c : MouseCall) (hc : Inert c) :
    ∃ x y, (mouseCallback s c).1 = { s with ow := { s.ow with endX := x, endY := y } } := by
  unfold mouseCallback
  by_cases hn : c.nCode ≥ 0
  · rcases hc with hneg | ⟨hup, hdown⟩
    · omega
    · by_cases hw : c.wParam = WM_LBUTTONDOWN
      · exact ⟨s.ow.endX, s.ow.endY, by simp [mouseSwitch, hn, hw, hdown hw]⟩
      · by_cases hm : c.wParam = WM_MOUSEMOVE
        · exact mouseCallback_move s c hm
        · exact ⟨s.ow.endX, s.ow.endY, by simp [mouseSwitch, hn, hw, hm, hup]⟩
  · exact ⟨s.ow.endX, s.ow.endY, by simp [hn]⟩

/-- A run of inert invocations changes at most the end point. -/
theorem runMouse_inert (s : Sys) (ms : List MouseCall) (hms : ∀ m ∈ ms, Inert m) :
    ∃ x y, (runMouse s ms).1 = { s with ow := { s.ow with endX := x, endY := y } } := by
  induction ms generalizing s with
  | nil => exact ⟨s.ow.endX, s.ow.endY, rfl⟩
  | cons m ms ih =>
    obtain ⟨x, y, h⟩ := mouseCallback_inert s m (hms m (List.mem_cons_self _ _))
    obtain ⟨x', y', h'⟩ := ih (mouseCallback s m).1 (fun m' hm' => hms m' (List.mem_cons_of_mem _ hm'))
    refine ⟨x', y', ?_⟩
    rw [runMouse_cons, h', h]

/-- A run that completes no drag leaves the application object as it was. -/
theorem runMouse_app_of_completesNoDrag (cs : List MouseCall) :
    ∀ (s : Sys), completesNoDrag s.ow.isDragging cs = true → (runMouse s cs).1.app = s.app := by
  induction cs with
  | nil => intro s _; rfl
  | cons c cs ih =>
    intro s h
    rw [runMouse_cons]
    unfold completesNoDrag at h
    by_cases hn : c.nCode < 0
    · have hst : (mouseCallback s c).1 = s := by
        have hn' : ¬ (c.nCode ≥ 0) := by omega
        simp [mouseCallback, hn']
      rw [if_pos hn] at h
      rw [hst]
      exact ih s h
    · have hn' : c.nCode ≥ 0 := by omega
      rw [if_neg hn] at h
      by_cases hd : c.wParam = WM_LBUTTONDOWN
      · rw [if_pos hd] at h
        by_cases hk : isCtrlPressed c.keyState = true
        · have hst := mouseCallback_down s c c.mouseStruct.Pt.X c.mouseStruct.Pt.Y
            ⟨hn', hd, rfl⟩ hk
          rw [hk, Bool.or_true] at h
          have h2 := ih (mouseCallback s c).1 (by rw [hst]; exact h)
          rw [h2, hst]
        · have hk' : isCtrlPressed c.keyState = false := by simpa using hk
          have hst : (mouseCallback s c).1 = s := by
            simp [mouseCallback, mouseSwitch, hn', hd, hk']
          rw [hk', Bool.or_false] at h
          rw [hst]
          exact ih s h
      · rw [if_neg hd] at h
        by_cases hu : c.wParam = WM_LBUTTONUP
        · rw [if_pos hu] at h
          simp only [Bool.and_eq_true, Bool.not_eq_true'] at h
          have hm : WM_LBUTTONUP ≠ WM_MOUSEMOVE := by decide
          have hm' : WM_LBUTTONUP ≠ WM_LBUTTONDOWN := by decide
          have hst : (mouseCallback s c).1 = s := by
            simp [mouseCallback, mouseSwitch, hn', hu, hm, hm', h.1]
          rw [hst]
          exact ih s (by rw [h.1]; exact h.2)
        · rw [if_neg hu] at h
          obtain ⟨x, y, hst⟩ := mouseCallback_inert s c (Or.inr ⟨hu, fun hd' => absurd hd' hd⟩)
          have h2 := ih (mouseCallback s c).1 (by rw [hst]; exact h)
          rw [h2, hst]

/-- A completed drag, with inert invocations in between, commits the canonical
rectangle and ends Idle. -/
theorem runMouse_drag (s : Sys) (d u : MouseCall) (ms : List MouseCall) (sx sy ex ey : Int)
    (happ : s.ow.hasApp = true)
    (hd : IsDown d sx sy) (hc : isCtrlPressed d.keyState = true)
    (hms : ∀ m ∈ ms, Inert m) (hu : IsUp u ex ey) :
    (runMouse s (d :: ms ++ [u])).1.app.captureRegion = minMaxRect sx sy ex ey ∧
    (runMouse s (d :: ms ++ [u])).1.ow.isDragging = false := by
  obtain ⟨x, y, h⟩ := runMouse_inert (mouseCallback s d).1 ms hms
  have hmid : (runMouse s (d :: ms)).1 =
      { s with ow := { s.ow with startX := sx, startY := sy, endX := x, endY := y,
                                 isDragging := true } } := by
    rw [runMouse_cons, h, mouseCallback_down s d sx sy hd hc]
  have hup := mouseCallback_up (runMouse s (d :: ms)).1 u ex ey hu (by rw [hmid])
    (by rw [hmid]; exact happ)
  have hfin : (runMouse s (d :: ms ++ [u])).1 = (mouseCallback (runMouse s (d :: ms)).1 u).1 := by
    rw [runMouse_append]
    rfl
  rw [hfin, hup, hmid]
  exact ⟨rfl, rfl⟩

/-- The confirm key runs `captureScreen` once and logs its error, if any. -/
theorem hookCallback_space (env : CaptureEnv) (s : Sys) (k : KeyCall)
    (hn : 0 ≤ k.nCode) (hw : k.wParam = WM_KEYDOWN) (hv : k.kbdStruct.VkCode = VK_SPACE) :
    hookCallback env s k =
      ⟨{ s with app := (captureScreen env s.app).app },
       (captureScreen env s.app).trace ++
         (match (captureScreen env s.app).err with
          | some e => [Effect.Log ("Error: " ++ e ++ "\n")]
          | none => []),
       some 1⟩ := by
  simp [hookCallback, hn, hw, hv]

theorem grabbedRects_hookCallback_space (env : CaptureEnv) (s : Sys) (k : KeyCall)
    (hn : 0 ≤ k.nCode) (hw : k.wParam = WM_KEYDOWN) (hv : k.kbdStruct.VkCode = VK_SPACE) :
    grabbedRects (hookCallback env s k).trace
      = if s.app.captureRegion.Empty then [] else [s.app.captureRegion] := by
  rw [hookCallback_space env s k hn hw hv]
  simp only [grabbedRects_append, grabbedRects_captureScreen]
  cases (captureScreen env s.app).err <;> simp [grabbedRects]

/-- C7: after any pointer events, then a completed drag from (sx, sy) to
(ex, ey), then any further pointer events that complete no drag (such as the
button-down and moves of a new drag still in progress), the committed
rectangle is the one of that drag, and a capture trigger (key-down of Space)
passes the frame-grabber exactly that rectangle, once, when it is non-empty
and nothing at all when it is empty. -/
theorem capture_uses_latest_completed_drag (env : CaptureEnv) (s : Sys)
    (pre ms post : List MouseCall) (d u : MouseCall) (k : KeyCall) (sx sy ex ey : Int)
    (happ : s.ow.hasApp = true)
    (hd : IsDown d sx sy) (hc : isCtrlPressed d.keyState = true)
    (hms : ∀ m ∈ ms, Inert m) (hu : IsUp u ex ey)
    (hpost : completesNoDrag false post = true)
    (hn : 0 ≤ k.nCode) (hw : k.wParam = WM_KEYDOWN) (hv : k.kbdStruct.VkCode = VK_SPACE) :
    (runMouse s (pre ++ (d :: ms ++ [u]) ++ post)).1.app.captureRegion
      = ⟨⟨Min.min sx ex, Min.min sy ey⟩, ⟨Max.max sx ex, Max.max sy ey⟩⟩ ∧
    grabbedRects (hookCallback env (runMouse s (pre ++ (d :: ms ++ [u]) ++ post)).1 k).trace
      = if (⟨⟨Min.min sx ex, Min.min sy ey⟩, ⟨Max.max sx ex, Max.max sy ey⟩⟩ : Rectangle).Empty
        then []
        else [⟨⟨Min.min sx ex, Min.min sy ey⟩, ⟨Max.max sx ex, Max.max sy ey⟩⟩] := by
  have hreg : (runMouse s (pre ++ (d :: ms ++ [u]) ++ post)).1.app.captureRegion
      = minMaxRect sx sy ex ey := by
    have hdrag := runMouse_drag (runMouse s pre).1 d u ms sx sy ex ey
      (by rw [runMouse_hasApp]; exact happ) hd hc hms hu
    rw [runMouse_append, runMouse_app_of_completesNoDrag post _
      (by rw [runMouse_append, hdrag.2]; exact hpost), runMouse_append]
    exact hdrag.1
  refine ⟨hreg, ?_⟩
  rw [grabbedRects_hookCallback_space env _ k hn hw hv, hreg]
  rfl

/-- Witness for C7: a first completed drag, a second completed drag, the start
of a third, then Space: the frame-grabber gets the second drag's rectangle. -/
theorem capture_uses_latest_completed_drag_witness :
    IsDown (sampleMouse WM_LBUTTONDOWN 100 100 0x8000) 100 100 ∧
    IsUp (sampleMouse WM_LBUTTONUP 400 300 0) 400 300 ∧
    Inert (sampleMouse WM_MOUSEMOVE 200 200 0x8000) ∧
    completesNoDrag false
      [sampleMouse WM_LBUTTONDOWN 7 7 0x8000, sampleMouse WM_MOUSEMOVE 9 9 0x8000] = true ∧
    grabbedRects (hookCallback okEnv
      (runMouse initial
        ([sampleMouse WM_LBUTTONDOWN 5 5 0x8000, sampleMouse WM_LBUTTONUP 50 60 0] ++
         (sampleMouse WM_LBUTTONDOWN 100 100 0x8000 :: [sampleMouse WM_MOUSEMOVE 200 200 0x8000] ++
           [sampleMouse WM_LBUTTONUP 400 300 0]) ++
         [sampleMouse WM_LBUTTONDOWN 7 7 0x8000, sampleMouse WM_MOUSEMOVE 9 9 0x8000])).1
      (sampleKey 0 WM_KEYDOWN VK_SPACE)).trace = [⟨⟨100, 100⟩, ⟨400, 300⟩⟩] :=
  ⟨by decide, by decide, by decide, by decide,
   (capture_uses_latest_completed_drag okEnv initial
      [sampleMouse WM_LBUTTONDOWN 5 5 0x8000, sampleMouse WM_LBUTTONUP 50 60 0]
      [sampleMouse WM_MOUSEMOVE 200 200 0x8000]
      [sampleMouse WM_LBUTTONDOWN 7 7 0x8000, sampleMouse WM_MOUSEMOVE 9 9 0x8000]
      (sampleMouse WM_LBUTTONDOWN 100 100 0x8000) (sampleMouse WM_LBUTTONUP 400 300 0)
      (sampleKey 0 WM_KEYDOWN VK_SPACE) 100 100 400 300
      rfl (by decide) (by decide) (by decide) (by decide) (by decide) (by decide) rfl rfl).2⟩

/-! ## Keyboard hook -/

theorem forwarded_append (as bs : List Effect) :
    forwarded (as ++ bs) = forwarded as ++ forwarded bs := by
  induction as with
  | nil => rfl
  | cons a as ih => cases a <;> simp [forwarded, ih]

theorem lockCount_append (as bs : List Effect) :
    lockCount (as ++ bs) = lockCount as + lockCount bs := by
  induction as with
  | nil => simp [lockCount]
  | cons a as ih =>
    rw [List.cons_append]
    cases a
    case Lock => simp only [lockCount, ih]; omega
    all_goals simp only [lockCount, ih]

theorem captureScreen_forwarded_lockCount (env : CaptureEnv) (app : CaptureApp) :
    forwarded (captureScreen env app).trace = [] ∧ lockCount (captureScreen env app).trace = 1 := by
  rcases captureScreen_cases env app with ⟨_, h⟩ | ⟨_, _, _, h⟩ | ⟨_, _, _, _, _, h⟩ |
    ⟨_, _, _, _, _, _, _, h⟩ | ⟨_, _, _, _, _, _, h⟩ <;> rw [h] <;> exact ⟨rfl, rfl⟩

/-- Counterexample to C8: a key-down of Space delivered with nCode = -1 is not
captured: the callback makes no capture, calls the next hook and returns that
hook's result (7) instead of 1. -/
theorem space_with_negative_code_is_forwarded :
    (sampleKey (-1) WM_KEYDOWN VK_SPACE).wParam = WM_KEYDOWN ∧
    (sampleKey (-1) WM_KEYDOWN VK_SPACE).kbdStruct.VkCode = VK_SPACE ∧
    hookCallback okEnv sampleSys (sampleKey (-1) WM_KEYDOWN VK_SPACE)
      = ⟨sampleSys, [Effect.CallNextHookEx 0 18446744073709551615 WM_KEYDOWN 0], some 7⟩ ∧
    lockCount (hookCallback okEnv sampleSys (sampleKey (-1) WM_KEYDOWN VK_SPACE)).trace = 0 ∧
    (hookCallback okEnv sampleSys (sampleKey (-1) WM_KEYDOWN VK_SPACE)).ret ≠ some 1 := by
  have h : hookCallback okEnv sampleSys (sampleKey (-1) WM_KEYDOWN VK_SPACE)
      = ⟨sampleSys, [Effect.CallNextHookEx 0 18446744073709551615 WM_KEYDOWN 0], some 7⟩ := by
    simp [hookCallback, passOn, sampleKey, uintptrOf]
  refine ⟨rfl, rfl, h, ?_, ?_⟩
  · rw [h]; rfl
  · rw [h]; decide

/-- C8 as amended: for a keyboard hook invocation with nCode >= 0, a key-down
of Space runs `captureScreen` exactly once (one lock acquisition, the
application object becomes the one `captureScreen` leaves, its error, if any,
is logged), returns 1 and does not call the next hook, whether or not the
capture succeeded; a key-down of Escape prints, runs `cleanup`, then exits the
process without returning; every other invocation (nCode < 0, a message other
than key-down, or another key) changes no state, makes no capture, calls the
next hook with the same three arguments and returns its result. -/
theorem keyboard_hook_dispatch (env : CaptureEnv) (s : Sys) (k : KeyCall) :
    (0 ≤ k.nCode → k.wParam = WM_KEYDOWN → k.kbdStruct.VkCode = VK_SPACE →
      (hookCallback env s k).sys = { s with app := (captureScreen env s.app).app } ∧
      (hookCallback env s k).trace = (captureScreen env s.app).trace ++
        (match (captureScreen env s.app).err with
         | some e => [Effect.Log ("Error: " ++ e ++ "\n")]
         | none => []) ∧
      lockCount (hookCallback env s k).trace = 1 ∧
      forwarded (hookCallback env s k).trace = [] ∧
      (hookCallback env s k).ret = some 1) ∧
    (0 ≤ k.nCode → k.wParam = WM_KEYDOWN → k.kbdStruct.VkCode = VK_ESCAPE →
      hookCallback env s k
        = ⟨s, [Effect.Stdout "\nExiting...\n"] ++ cleanup s ++ [Effect.Exit 0], none⟩) ∧
    (¬ (0 ≤ k.nCode ∧ k.wParam = WM_KEYDOWN ∧
          (k.kbdStruct.VkCode = VK_SPACE ∨ k.kbdStruct.VkCode = VK_ESCAPE)) →
      hookCallback env s k
        = ⟨s, [Effect.CallNextHookEx 0 (uintptrOf k.nCode) k.wParam k.lParam], some k.next⟩) := by
  refine ⟨?_, ?_, ?_⟩
  · intro hn hw hv
    rw [hookCallback_space env s k hn hw hv]
    refine ⟨rfl, rfl, ?_, ?_, rfl⟩
    · show lockCount (_ ++ _) = 1
      rw [lockCount_append, (captureScreen_forwarded_lockCount env s.app).2]
      cases (captureScreen env s.app).err <;> rfl
    · show forwarded (_ ++ _) = []
      rw [forwarded_append, (captureScreen_forwarded_lockCount env s.app).1]
      cases (captureScreen env s.app).err <;> rfl
  · intro hn hw hv
    have hne : VK_ESCAPE ≠ VK_SPACE := by decide
    simp [hookCallback, hn, hw, hv, hne]
  · intro hnot
    unfold hookCallback passOn
    by_cases hn : k.nCode ≥ 0
    · by_cases hw : k.wParam = WM_KEYDOWN
      · have hv1 : k.kbdStruct.VkCode ≠ VK_SPACE := fun h => hnot ⟨hn, hw, Or.inl h⟩
        have hv2 : k.kbdStruct.VkCode ≠ VK_ESCAPE := fun h => hnot ⟨hn, hw, Or.inr h⟩
        simp [hn, hw, hv1, hv2]
      · simp [hn, hw]
    · simp [hn]

/-! ## Overlay paint -/

theorem min_self (a : Int) : min a a = a := by
  unfold min
  split <;> rfl

theorem max_self (a : Int) : max a a = a := by
  unfold max
  split <;> rfl

/-- Counterexample to C10: with the 300 by 200 rectangle as the last committed
one, a button-down at (10, 20) with the modifier held leaves `lastRect` in
place, and the paint that follows draws its outline, then the live one. -/
theorem previous_outline_still_drawn :
    sampleSys.ow.lastRect.Empty = false ∧
    IsDown (sampleMouse WM_LBUTTONDOWN 10 20 0x8000) 10 20 ∧
    isCtrlPressed (sampleMouse WM_LBUTTONDOWN 10 20 0x8000).keyState = true ∧
    (mouseCallback sampleSys (sampleMouse WM_LBUTTONDOWN 10 20 0x8000)).1.ow.isDragging = true ∧
    outlines (wndProc (some (mouseCallback sampleSys
        (sampleMouse WM_LBUTTONDOWN 10 20 0x8000)).1.ow) sampleGdi 5 WM_PAINT 0 0).1
      = [(100, 100, 400, 300), (10, 20, 10, 20)] ∧
    (100, 100, 400, 300) ∈ outlines (wndProc (some (mouseCallback sampleSys
        (sampleMouse WM_LBUTTONDOWN 10 20 0x8000)).1.ow) sampleGdi 5 WM_PAINT 0 0).1 := by
  have h : outlines (wndProc (some (mouseCallback sampleSys
        (sampleMouse WM_LBUTTONDOWN 10 20 0x8000)).1.ow) sampleGdi 5 WM_PAINT 0 0).1
      = [(100, 100, 400, 300), (10, 20, 10, 20)] := by decide
  refine ⟨by decide, by decide, by decide, by decide, h, ?_⟩
  rw [h]
  exact List.mem_cons_self _ _

/-- C10 as amended: with a non-empty last committed rectangle, a button-down
with the modifier held begins a drag (Dragging, start = end = the button-down
point) and posts the redraw request, which `wndProc` turns into an
invalidation; it leaves the last committed rectangle and the application's
committed rectangle as they were, so the paint that follows draws two
outlines: the previously committed rectangle's, then the live one's.  The same
holds for a paint that comes after any run of pointer-moves of the new drag:
the last committed rectangle is still in place and its outline is drawn first,
then the live outline spanned by the start point and the current end point. -/
theorem modifier_down_begins_drag_keeps_outline (s : Sys) (d : MouseCall) (g : GdiEnv)
    (hwnd : Nat) (x y : Int)
    (hprev : s.ow.lastRect.Empty = false)
    (hd : IsDown d x y) (hc : isCtrlPressed d.keyState = true) :
    (mouseCallback s d).1.ow.isDragging = true ∧
    ((mouseCallback s d).1.ow.startX, (mouseCallback s d).1.ow.startY) = (x, y) ∧
    ((mouseCallback s d).1.ow.endX, (mouseCallback s d).1.ow.endY) = (x, y) ∧
    (mouseCallback s d).2.1
      = [Effect.PostMessage s.ow.hwnd WM_UPDATE_RECT 0 0,
         Effect.CallNextHookEx 0 (uintptrOf d.nCode) d.wParam d.lParam] ∧
    wndProc (some (mouseCallback s d).1.ow) g hwnd WM_UPDATE_RECT 0 0
      = ([Effect.InvalidateRect hwnd 0 1], 0) ∧
    (mouseCallback s d).1.ow.lastRect = s.ow.lastRect ∧
    (mouseCallback s d).1.app = s.app ∧
    outlines (wndProc (some (mouseCallback s d).1.ow) g hwnd WM_PAINT 0 0).1
      = [(uintptrOf s.ow.lastRect.Min.X, uintptrOf s.ow.lastRect.Min.Y,
          uintptrOf s.ow.lastRect.Max.X, uintptrOf s.ow.lastRect.Max.Y),
         (uintptrOf x, uintptrOf y, uintptrOf x, uintptrOf y)] ∧
    (∀ ms : List MouseCall, (∀ m ∈ ms, m.wParam = WM_MOUSEMOVE) →
      (runMouse s (d :: ms)).1.ow.isDragging = true ∧
      (runMouse s (d :: ms)).1.ow.lastRect = s.ow.lastRect ∧
      (runMouse s (d :: ms)).1.app = s.app ∧
      outlines (wndProc (some (runMouse s (d :: ms)).1.ow) g hwnd WM_PAINT 0 0).1
        = [(uintptrOf s.ow.lastRect.Min.X, uintptrOf s.ow.lastRect.Min.Y,
            uintptrOf s.ow.lastRect.Max.X, uintptrOf s.ow.lastRect.Max.Y),
           (uintptrOf (Min.min x (runMouse s (d :: ms)).1.ow.endX),
            uintptrOf (Min.min y (runMouse s (d :: ms)).1.ow.endY),
            uintptrOf (Max.max x (runMouse s (d :: ms)).1.ow.endX),
            uintptrOf (Max.max y (runMouse s (d :: ms)).1.ow.endY))]) := by
  have hst := mouseCallback_down s d x y hd hc
  have hne : WM_PAINT ≠ WM_UPDATE_RECT := by decide
  have hmoves : ∀ ms : List MouseCall, (∀ m ∈ ms, m.wParam = WM_MOUSEMOVE) →
      ∃ x' y', (runMouse s (d :: ms)).1 =
        { s with ow := { s.ow with startX := x, startY := y, endX := x', endY := y',
                                   isDragging := true } } := by
    intro ms hms
    obtain ⟨x', y', h⟩ := runMouse_moves (mouseCallback s d).1 ms hms
    exact ⟨x', y', by rw [runMouse_cons, h, hst]⟩
  obtain ⟨hn, hw, hp⟩ := hd
  have htr : (mouseCallback s d).2.1
      = [Effect.PostMessage s.ow.hwnd WM_UPDATE_RECT 0 0,
         Effect.CallNextHookEx 0 (uintptrOf d.nCode) d.wParam d.lParam] := by
    simp [mouseCallback, mouseSwitch, hn, hw, hc]
  refine ⟨by rw [hst], by rw [hst], by rw [hst], htr, ?_, by rw [hst], by rw [hst], ?_, ?_⟩
  · simp [wndProc]
  · rw [hst]
    simp [wndProc, hne, paint, hprev, outlines, min_self, max_self]
  · intro ms hms
    obtain ⟨x', y', hmid⟩ := hmoves ms hms
    rw [hmid]
    refine ⟨rfl, rfl, rfl, ?_⟩
    simp [wndProc, hne, paint, hprev, outlines, min_eq, max_eq]

/-- Witness for C10 as amended: the sample state, a button-down at (10, 20) and
a pointer-move to (60, 70) with the modifier held. -/
theorem modifier_down_begins_drag_keeps_outline_witness :
    sampleSys.ow.lastRect.Empty = false ∧
    IsDown (sampleMouse WM_LBUTTONDOWN 10 20 0x8000) 10 20 ∧
    (mouseCallback sampleSys (sampleMouse WM_LBUTTONDOWN 10 20 0x8000)).1.ow.lastRect
      = sampleSys.ow.lastRect ∧
    (runMouse sampleSys [sampleMouse WM_LBUTTONDOWN 10 20 0x8000,
        sampleMouse WM_MOUSEMOVE 60 70 0x8000]).1.ow.lastRect = sampleSys.ow.lastRect ∧
    outlines (wndProc (some (runMouse sampleSys [sampleMouse WM_LBUTTONDOWN 10 20 0x8000,
        sampleMouse WM_MOUSEMOVE 60 70 0x8000]).1.ow) sampleGdi 5 WM_PAINT 0 0).1
      = [(100, 100, 400, 300), (10, 20, 60, 70)] :=
  have h := modifier_down_begins_drag_keeps_outline sampleSys
    (sampleMouse WM_LBUTTONDOWN 10 20 0x8000) sampleGdi 5 10 20 (by decide) (by decide)
    (by decide)
  have hm := h.2.2.2.2.2.2.2.2 [sampleMouse WM_MOUSEMOVE 60 70 0x8000] (by decide)
  ⟨by decide, by decide, h.2.2.2.2.2.1, hm.2.1, hm.2.2.2.trans (by decide)⟩

end GoCapture
